import Mathlib

/-
  Verification development for the cosmos-upgrades service (src/app.py).

  The Python source is shallowly embedded: pure computations become Lean
  functions; each outbound HTTP interaction is parametrised by an abstract
  response/outcome value, so that the control flow of the Python code acting
  on that response is what gets modelled.  Machine integers are Int (Python
  integers are unbounded, so no modular arithmetic is needed).
-/

namespace CosmosUpgrades

/-- An endpoint descriptor from the chain registry: `{address, provider}`.
Only `address` is consulted by the core logic. -/
structure Endpoint where
  address : String
  provider : String
deriving Repr, DecidableEq

/-- `SERVER_BLACKLIST` from app.py line 29: addresses skipped by the
Reconciler's REST loop. -/
def SERVER_BLACKLIST : List String :=
  ["https://stride.api.bccnodes.com:443",
   "https://api.omniflix.nodestake.top",
   "https://cosmos-lcd.quickapi.com:443"]

/-- Content `@type` string identifying a software-upgrade proposal
(app.py line 124). -/
def softwareUpgradeType : String := "/cosmos.upgrade.v1beta1.SoftwareUpgradeProposal"

/- ----------------------------------------------------------------
   The regex `SEMANTIC_VERSION_PATTERN = re.compile(r'v(\d+(?:\.\d+){0,2})')`
   (app.py line 26), embedded as an explicit scanner.  `re.search` returns
   the leftmost match; at a match site the pattern consumes a literal 'v',
   then a maximal nonempty digit run, then greedily up to two further
   groups of '.' followed by a maximal nonempty digit run.  The capture
   (group 1) is everything after the 'v'.
   ---------------------------------------------------------------- -/

/-- Longest prefix of digit characters, together with the rest. -/
def leadingDigits : List Char → List Char × List Char
  | [] => ([], [])
  | c :: cs =>
    if c.isDigit then
      let p := leadingDigits cs
      (c :: p.1, p.2)
    else ([], c :: cs)

/-- Consume up to `k` repetitions of `'.'` followed by a nonempty digit run
(the `(?:\.\d+){0,2}` part, greedy). Returns (consumed, rest). -/
def dotGroups : Nat → List Char → List Char × List Char
  | 0, cs => ([], cs)
  | _ + 1, [] => ([], [])
  | k + 1, c :: rest =>
    if c = '.' then
      let p := leadingDigits rest
      if p.1 = [] then ([], c :: rest)
      else
        let q := dotGroups k p.2
        (c :: (p.1 ++ q.1), q.2)
    else ([], c :: rest)

/-- Attempt to match `v(\d+(?:\.\d+){0,2})` at the head of the character
list; on success return the captured group (without the leading 'v'). -/
def matchAt : List Char → Option (List Char)
  | [] => none
  | c :: rest =>
    if c = 'v' then
      let p := leadingDigits rest
      if p.1 = [] then none
      else some (p.1 ++ (dotGroups 2 p.2).1)
    else none

/-- Leftmost-match scan: try `matchAt` at every position, left to right. -/
def searchAux : List Char → Option (List Char)
  | [] => none
  | c :: cs =>
    match matchAt (c :: cs) with
    | some m => some m
    | none => searchAux cs

/-- `SEMANTIC_VERSION_PATTERN.search(s)`, returning group 1 on a match. -/
def semverSearch (s : String) : Option String :=
  match searchAux s.data with
  | some m => some (String.mk m)
  | none => none

/- ----------------------------------------------------------------
   Python `int(...)` on the height fields.  Model: optional single sign
   character followed by a nonempty digit run (Python additionally strips
   whitespace and allows digit-group underscores, which no height field
   uses; a non-integer argument raises ValueError, modelled as `none`).
   ---------------------------------------------------------------- -/

/-- Numeric value of a digit list (most significant first). -/
def digitsVal (ds : List Char) : Nat :=
  ds.foldl (fun n c => 10 * n + (c.toNat - 48)) 0

/-- Model of Python `int()` applied to a string: `some` the parsed value,
`none` when `int()` would raise `ValueError`. -/
def pyInt (s : String) : Option Int :=
  match s.data with
  | [] => none
  | c :: ds =>
    if c = '-' then
      if ds ≠ [] ∧ ds.all Char.isDigit then some (-(digitsVal ds : Int)) else none
    else if c = '+' then
      if ds ≠ [] ∧ ds.all Char.isDigit then some ((digitsVal ds : Int)) else none
    else if (c :: ds).all Char.isDigit then some ((digitsVal (c :: ds) : Int)) else none

/- ----------------------------------------------------------------
   Endpoint Prober (app.py lines 31-48).  `is_endpoint_healthy` performs a
   GET on `{address}/health`; its outcome per address is abstracted as a
   boolean oracle `healthy`.  `ThreadPoolExecutor.map` yields results in
   input order, so the comprehension is an order-preserving filter,
   truncated to the first 5.
   ---------------------------------------------------------------- -/

/-- `get_healthy_rpc_endpoints` (app.py lines 31-35). -/
def get_healthy_rpc_endpoints (healthy : String → Bool) (rpc_endpoints : List Endpoint) :
    List Endpoint :=
  (rpc_endpoints.filter (fun rpc => healthy rpc.address)).take 5

/-- `get_healthy_rest_endpoints` (app.py lines 37-41). -/
def get_healthy_rest_endpoints (healthy : String → Bool) (rest_endpoints : List Endpoint) :
    List Endpoint :=
  (rest_endpoints.filter (fun rest => healthy rest.address)).take 5

/- ----------------------------------------------------------------
   Chain-Height Reader `get_latest_block_height_rpc` (app.py lines 76-84).
   The GET on `{rpc}/status` either raises a requests.RequestException
   (timeout, connection error, HTTP error status via raise_for_status, or
   a malformed JSON body, which modern requests raises as a
   RequestException subclass) — all caught and mapped to -1 — or produces
   a JSON body whose `result.sync_info.latest_block_height` field is
   either absent (the `.get` chain defaults it to the integer 0) or a
   string fed to `int(...)`; a non-integer string there raises ValueError,
   which the function does NOT catch.
   ---------------------------------------------------------------- -/

/-- Abstract outcome of `requests.get(f"{rpc_url}/status")` followed by
JSON decoding. -/
inductive StatusResponse where
  | requestError
  | okBody (height : Option String)
deriving Repr, DecidableEq

/-- `get_latest_block_height_rpc` (app.py lines 76-84). `Except.error`
models an uncaught Python exception escaping the function. -/
def get_latest_block_height_rpc : StatusResponse → Except String Int
  | .requestError => .ok (-1)
  | .okBody none => .ok 0
  | .okBody (some s) =>
    match pyInt s with
    | some n => .ok n
    | none => .error "ValueError"

/- ----------------------------------------------------------------
   Upgrade-Plan Reader, active-proposals side:
   `fetch_active_upgrade_proposals` (app.py lines 111-157).
   ---------------------------------------------------------------- -/

/-- The fields of one proposal's `content` object that the scan reads:
`@type`, `plan.name` (absent keys default to `""`), `description`, and
`plan.height` (absent plan/height defaults to the integer 0, modelled as
`none`; a present field carries its string value). -/
structure ProposalContent where
  type_ : String
  plan_name : String
  description : String
  plan_height : Option String
deriving Repr, DecidableEq

/-- Version selection for one proposal (app.py lines 126-142): search the
pattern in the plan name and in the description; when both match keep the
longer capture (ties go to the description), when one matches keep it. -/
def extractProposalVersion (content : ProposalContent) : Option String :=
  match semverSearch content.plan_name, semverSearch content.description with
  | some p, some d => some (if p.length > d.length then p else d)
  | some p, none => some p
  | none, some d => some d
  | none, none => none

/-- Height extraction for one proposal (app.py lines 144-147):
`int(content.get("plan", {}).get("height", 0))` with `ValueError`
defaulting to 0. -/
def proposalHeight (content : ProposalContent) : Int :=
  match content.plan_height with
  | none => 0
  | some s =>
    match pyInt s with
    | some n => n
    | none => 0

/-- The proposal loop of app.py lines 122-151: walk proposals in order;
for a software-upgrade proposal compute version and height and return
them when the version is truthy (`if version:`); otherwise keep
scanning.  Exhaustion yields `none` (Python `(None, None)`). -/
def scanProposals : List ProposalContent → Option (String × Int)
  | [] => none
  | content :: rest =>
    if content.type_ = softwareUpgradeType then
      match extractProposalVersion content with
      | some version =>
        if version = "" then scanProposals rest
        else some (version, proposalHeight content)
      | none => scanProposals rest
    else scanProposals rest

/-- Abstract outcome of the GET on
`{rest_url}/cosmos/gov/v1beta1/proposals?proposal_status=2`:
a network-layer RequestException, or an HTTP response with a status code
and (when the body is well-formed JSON) the parsed proposal contents. -/
inductive GovProposalsResponse where
  | netError
  | status (code : Nat) (body : Option (List ProposalContent))
deriving Repr, DecidableEq

/-- `fetch_active_upgrade_proposals` (app.py lines 111-157): 501 returns
`(None, None)` before `raise_for_status`; 4xx/5xx raise HTTPError which is
re-raised; a malformed JSON body raises and is re-raised; otherwise the
proposal scan runs.  `Except.error` models an exception propagating to the
caller. -/
def fetch_active_upgrade_proposals : GovProposalsResponse → Except String (Option (String × Int))
  | .netError => .error "RequestException"
  | .status code body =>
    if code = 501 then .ok none
    else if 400 ≤ code ∧ code < 600 then .error "HTTPError"
    else
      match body with
      | none => .error "JSONDecodeError"
      | some proposals => .ok (scanProposals proposals)

/- ----------------------------------------------------------------
   Network Reconciler `fetch_data_for_network` (app.py lines 183-252).
   The two `shuffle` calls are modelled by quantifying over the (already
   shuffled) healthy endpoint lists; the per-address outcomes of the
   height reader and of the pair of REST upgrade queries are abstracted
   as oracles.
   ---------------------------------------------------------------- -/

/-- The RPC scan of app.py lines 192-205: `latest_block_height` starts at
-1 and is overwritten by every iteration's return value; the loop breaks
at the first strictly positive height, recording that address. -/
def rpcScanLoop (getHeight : String → Int) :
    List Endpoint → Int → String → Int × String
  | [], latest, server => (latest, server)
  | e :: rest, _, server =>
    let h := getHeight e.address
    if 0 < h then (h, e.address)
    else rpcScanLoop getHeight rest h server

/-- Joint outcome of the `try` block at app.py lines 219-228 for one REST
endpoint: `failed` when either `fetch_active_upgrade_proposals` or
`fetch_current_upgrade_plan` raised; otherwise the two returned pairs. -/
inductive RestOutcome where
  | failed
  | ok (av : Option String) (ah : Option Int) (cv : Option String) (ch : Option Int)
deriving Repr, DecidableEq

/-- Python truthiness of an optional version string (`if version:`):
false for `None` and for `""`. -/
def truthy : Option String → Bool
  | none => false
  | some s => s != ""

/-- The `(height is not None) and height > latest_block_height` test. -/
def heightGt (hOpt : Option Int) (latest : Int) : Bool :=
  match hOpt with
  | none => false
  | some h => decide (latest < h)

/-- What the REST loop records on acceptance: the Python locals
`upgrade_block_height`, `upgrade_version`, `source`. -/
structure UpgradeDecision where
  upgrade_block_height : Option Int
  upgrade_version : String
  source : String
deriving Repr, DecidableEq

/-- The REST loop of app.py lines 214-240.  Blacklisted addresses are
skipped; a failed query pair moves to the next candidate (the code's
`continue` vs `break` distinction at the last index changes only a log
line); an accepted active-proposal or current-plan pair stops the loop. -/
def restLoop (latest : Int) (query : String → RestOutcome) :
    List Endpoint → UpgradeDecision
  | [] => ⟨none, "", ""⟩
  | e :: rest =>
    if SERVER_BLACKLIST.contains e.address then restLoop latest query rest
    else
      match query e.address with
      | .failed => restLoop latest query rest
      | .ok av ah cv ch =>
        if truthy av && heightGt ah latest then
          ⟨ah, av.getD "", "active_upgrade_proposals"⟩
        else if truthy cv && heightGt ch latest then
          ⟨ch, cv.getD "", "current_upgrade_plan"⟩
        else restLoop latest query rest

/-- The record assembled at app.py lines 242-251. -/
structure NetworkResult where
  type_ : String
  network : String
  upgrade_found : Bool
  latest_block_height : Int
  upgrade_block_height : Option Int
  version : String
  rpc_server : String
  source : String
deriving Repr, DecidableEq

/-- `fetch_data_for_network` (app.py lines 183-252), parametrised by the
post-shuffle healthy endpoint lists and the per-address outcome oracles.
Executions in which `get_latest_block_height_rpc` raises an uncaught
ValueError emit no record at all (the exception propagates to the batch
loop), so the height oracle here returns plain integers. -/
def fetch_data_for_network (network network_type : String)
    (healthy_rpc_endpoints healthy_rest_endpoints : List Endpoint)
    (getHeight : String → Int) (query : String → RestOutcome) : NetworkResult :=
  let scan := rpcScanLoop getHeight healthy_rpc_endpoints (-1) ""
  let dec := restLoop scan.1 query healthy_rest_endpoints
  { type_ := network_type
    network := network
    upgrade_found := dec.upgrade_version != ""
    latest_block_height := scan.1
    upgrade_block_height := dec.upgrade_block_height
    version := dec.upgrade_version
    rpc_server := scan.2
    source := dec.source }

/- ----------------------------------------------------------------
   Batch Orchestrator sort (app.py lines 272-273):
   `sorted(results, key=lambda x: x['upgrade_found'], reverse=True)`.
   Python's sorted is a stable sort; with a boolean key and reverse=True
   the unique stable result puts True-keyed records first.  Modelled by a
   stable insertion sort with the induced "goes no later than" test.
   ---------------------------------------------------------------- -/

/-- `a` may stay in front of `b` under key `upgrade_found` descending. -/
def upgradeFirst (a b : NetworkResult) : Bool :=
  a.upgrade_found || !b.upgrade_found

/-- Stable insertion of one record into an already-sorted list. -/
def insertByUpgrade (r : NetworkResult) : List NetworkResult → List NetworkResult
  | [] => [r]
  | x :: xs => if upgradeFirst r x then r :: x :: xs else x :: insertByUpgrade r xs

/-- The final sort of app.py line 273. -/
def sortResultsByUpgrade (l : List NetworkResult) : List NetworkResult :=
  l.foldr insertByUpgrade []

/- ================================================================
   Theorems
   ================================================================ -/

/-- Claim C9: for every input endpoint list and every assignment of health
outcomes to its endpoints, the Prober's output (get_healthy_rpc_endpoints
and get_healthy_rest_endpoints) is a subset of the input endpoints and
contains at most 5 elements. -/
theorem claim_C9 : ∀ (healthy : String → Bool) (l : List Endpoint),
    (get_healthy_rpc_endpoints healthy l ⊆ l
      ∧ (get_healthy_rpc_endpoints healthy l).length ≤ 5)
    ∧ (get_healthy_rest_endpoints healthy l ⊆ l
      ∧ (get_healthy_rest_endpoints healthy l).length ≤ 5) := by
  intro healthy l
  unfold get_healthy_rpc_endpoints get_healthy_rest_endpoints
  refine ⟨⟨?_, ?_⟩, ?_, ?_⟩
  · exact fun a ha => List.mem_of_mem_filter (List.take_subset _ _ ha)
  · rw [List.length_take]; exact Nat.min_le_left _ _
  · exact fun a ha => List.mem_of_mem_filter (List.take_subset _ _ ha)
  · rw [List.length_take]; exact Nat.min_le_left _ _

lemma insertByUpgrade_found (x : NetworkResult) (hx : x.upgrade_found = true) :
    ∀ L, insertByUpgrade x L = x :: L := by
  intro L
  cases L with
  | nil => rfl
  | cons y ys => simp [insertByUpgrade, upgradeFirst, hx]

lemma insertByUpgrade_notfound (x : NetworkResult) (hx : x.upgrade_found = false) :
    ∀ A B, (∀ a ∈ A, a.upgrade_found = true) → (∀ b ∈ B, b.upgrade_found = false) →
      insertByUpgrade x (A ++ B) = A ++ x :: B := by
  intro A
  induction A with
  | nil =>
    intro B _ hB
    cases B with
    | nil => rfl
    | cons b bs =>
      have hb := hB b (by simp)
      simp [insertByUpgrade, upgradeFirst, hx, hb]
  | cons a A ih =>
    intro B hA hB
    have ha := hA a (by simp)
    have hcond : upgradeFirst x a = false := by simp [upgradeFirst, hx, ha]
    calc insertByUpgrade x ((a :: A) ++ B)
        = a :: insertByUpgrade x (A ++ B) := by
          simp [insertByUpgrade, hcond]
      _ = a :: (A ++ x :: B) := by
          rw [ih B (fun a' h' => hA a' (by simp [h'])) hB]
      _ = (a :: A) ++ x :: B := rfl

/-- Claim C8: the Batch Orchestrator's final sort is a stable partition:
every record with upgrade_found = true precedes every record with
upgrade_found = false, and the relative order inside each group is the
pre-sort order.  (Stated as: the sorted list is exactly the true-group
filter followed by the false-group filter.) -/
theorem claim_C8 : ∀ l : List NetworkResult,
    sortResultsByUpgrade l =
      l.filter (fun r => r.upgrade_found) ++ l.filter (fun r => !r.upgrade_found) := by
  intro l
  induction l with
  | nil => rfl
  | cons x xs ih =>
    show insertByUpgrade x (sortResultsByUpgrade xs) = _
    rw [ih]
    cases hx : x.upgrade_found with
    | true =>
      rw [insertByUpgrade_found x hx]
      simp [List.filter_cons, hx]
    | false =>
      rw [insertByUpgrade_notfound x hx _ _
        (fun a ha => by simpa using List.of_mem_filter ha)
        (fun b hb => by simpa using List.of_mem_filter hb)]
      simp [List.filter_cons, hx]

/-- Claim C2 (amended): a RequestException-level failure of the status
query (timeout, network error, HTTP error status, malformed JSON body)
makes get_latest_block_height_rpc return -1; a response whose
latest_block_height field is missing yields 0 (the `.get` default), not
-1; a present field parses with Python int(), returning its value on
success and raising an uncaught ValueError on a non-integer string. -/
theorem claim_C2 :
    get_latest_block_height_rpc .requestError = .ok (-1)
    ∧ get_latest_block_height_rpc (.okBody none) = .ok 0
    ∧ (∀ (s : String) (n : Int), pyInt s = some n →
        get_latest_block_height_rpc (.okBody (some s)) = .ok n)
    ∧ (∀ s : String, pyInt s = none →
        get_latest_block_height_rpc (.okBody (some s)) = .error "ValueError") := by
  refine ⟨rfl, rfl, ?_, ?_⟩
  · intro s n h
    simp [get_latest_block_height_rpc, h]
  · intro s h
    simp [get_latest_block_height_rpc, h]

/-- Witness for claim C2 at concrete inputs. -/
theorem claim_C2_witness :
    get_latest_block_height_rpc (.okBody (some "123")) = .ok 123
    ∧ get_latest_block_height_rpc (.okBody (some "forty")) = .error "ValueError" :=
  ⟨claim_C2.2.2.1 "123" 123 (by decide), claim_C2.2.2.2 "forty" (by decide)⟩

/-- Counterexample to claim C2 as stated: a response with the height field
missing makes the reader return 0, not the sentinel -1, and a malformed
height field raises rather than returning -1. -/
theorem claim_C2_cx :
    get_latest_block_height_rpc (.okBody none) = .ok 0
    ∧ get_latest_block_height_rpc (.okBody none) ≠ .ok (-1)
    ∧ get_latest_block_height_rpc (.okBody (some "forty-two")) = .error "ValueError" := by
  refine ⟨rfl, ?_, rfl⟩
  intro h
  rw [get_latest_block_height_rpc] at h
  exact absurd (Except.ok.inj h) (by decide)

/-- Claim C7 (amended): fetch_active_upgrade_proposals returns (None, None)
when the server responds 501 — and also when a successful response contains
no qualifying proposal; any other non-success status (4xx/5xx) or
network-layer error propagates to the caller as a failure. -/
theorem claim_C7 :
    (∀ body, fetch_active_upgrade_proposals (.status 501 body) = .ok none)
    ∧ fetch_active_upgrade_proposals .netError = .error "RequestException"
    ∧ (∀ (code : Nat) body, 400 ≤ code → code < 600 → code ≠ 501 →
        fetch_active_upgrade_proposals (.status code body) = .error "HTTPError")
    ∧ (∀ (code : Nat) proposals, code < 400 →
        fetch_active_upgrade_proposals (.status code (some proposals))
          = .ok (scanProposals proposals))
    ∧ (∀ code : Nat, code < 400 →
        fetch_active_upgrade_proposals (.status code none) = .error "JSONDecodeError") := by
  refine ⟨?_, rfl, ?_, ?_, ?_⟩
  · intro body
    simp [fetch_active_upgrade_proposals]
  · intro code body h1 h2 hne
    simp [fetch_active_upgrade_proposals, hne, h1, h2]
  · intro code proposals h
    have h1 : ¬ (code = 501) := by omega
    have h2 : ¬ (400 ≤ code ∧ code < 600) := by omega
    simp [fetch_active_upgrade_proposals, h1, h2]
  · intro code h
    have h1 : ¬ (code = 501) := by omega
    have h2 : ¬ (400 ≤ code ∧ code < 600) := by omega
    simp [fetch_active_upgrade_proposals, h1, h2]

/-- Witness for claim C7 at concrete inputs. -/
theorem claim_C7_witness :
    fetch_active_upgrade_proposals (.status 501 none) = .ok none
    ∧ fetch_active_upgrade_proposals (.status 404 none) = .error "HTTPError"
    ∧ fetch_active_upgrade_proposals (.status 200 (some [])) = .ok (scanProposals [])
    ∧ fetch_active_upgrade_proposals (.status 200 none) = .error "JSONDecodeError" :=
  ⟨claim_C7.1 none,
   claim_C7.2.2.1 404 none (by decide) (by decide) (by decide),
   claim_C7.2.2.2.1 200 [] (by decide),
   claim_C7.2.2.2.2 200 (by decide)⟩

/-- Counterexample to claim C7 as stated ("(None, None) exactly when 501"):
a 200 response with no qualifying proposal also yields (None, None). -/
theorem claim_C7_cx :
    fetch_active_upgrade_proposals (.status 200 (some [])) = .ok none
    ∧ (200 : Nat) ≠ 501 :=
  ⟨rfl, by decide⟩

/-- Claim C1 (amended): the RPC scan stops at the first endpoint whose
height call returns a strictly positive value, recording its address; when
every endpoint returns a non-positive value (-1 or 0), no rpc_server is
recorded and the emitted latest_block_height is the LAST endpoint's return
value (the initial -1 only when the list is empty), because each iteration
overwrites latest_block_height before testing it. -/
theorem claim_C1 :
    (∀ (g : String → Int) (l1 : List Endpoint) (e : Endpoint) (l2 : List Endpoint)
        (lat : Int) (srv : String),
      (∀ x ∈ l1, g x.address ≤ 0) → 0 < g e.address →
      rpcScanLoop g (l1 ++ e :: l2) lat srv = (g e.address, e.address))
    ∧ (∀ (g : String → Int) (l : List Endpoint) (lat : Int),
      (∀ x ∈ l, g x.address ≤ 0) →
      rpcScanLoop g l lat "" = (l.getLast?.elim lat (fun x => g x.address), "")) := by
  constructor
  · intro g l1
    induction l1 with
    | nil =>
      intro e l2 lat srv _ hpos
      show rpcScanLoop g (e :: l2) lat srv = _
      rw [rpcScanLoop, if_pos hpos]
    | cons a l1 ih =>
      intro e l2 lat srv h hpos
      have ha : g a.address ≤ 0 := h a (by simp)
      show rpcScanLoop g (a :: (l1 ++ e :: l2)) lat srv = _
      rw [rpcScanLoop, if_neg (by omega)]
      exact ih e l2 (g a.address) srv (fun x hx => h x (by simp [hx])) hpos
  · intro g l
    induction l with
    | nil => intro lat _; rfl
    | cons a l ih =>
      intro lat h
      have ha : g a.address ≤ 0 := h a (by simp)
      rw [rpcScanLoop, if_neg (by omega)]
      rw [ih (g a.address) (fun x hx => h x (by simp [hx]))]
      cases l with
      | nil => rfl
      | cons b m =>
        rw [List.getLast?_cons_cons]
        obtain ⟨x, hx⟩ : ∃ x, (b :: m).getLast? = some x := by
          cases hgl : (b :: m).getLast? with
          | none => exact absurd (List.getLast?_eq_none_iff.mp hgl) (by simp)
          | some x => exact ⟨x, rfl⟩
        rw [hx]
        rfl

/-- Witness for claim C1 at concrete inputs: the scan breaks at the first
positive height, and with a single endpoint returning -1 it emits (-1, ""). -/
theorem claim_C1_witness :
    rpcScanLoop (fun a => if a = "b" then (5 : Int) else 0)
      ([⟨"a", "pa"⟩] ++ ⟨"b", "pb"⟩ :: [⟨"c", "pc"⟩]) (-1) "" = (5, "b")
    ∧ rpcScanLoop (fun _ => (-1 : Int)) [⟨"a", "pa"⟩] (-1) "" = (-1, "") := by
  constructor
  · exact claim_C1.1 (fun a => if a = "b" then (5 : Int) else 0)
      [⟨"a", "pa"⟩] ⟨"b", "pb"⟩ [⟨"c", "pc"⟩] (-1) "" (by decide) (by decide)
  · exact claim_C1.2 (fun _ => (-1 : Int)) [⟨"a", "pa"⟩] (-1) (by decide)

/-- Counterexample to claim C1 as stated: a single healthy endpoint whose
height call returns 0 (a value the reader produces for a missing field)
leaves rpc_server empty but emits latest_block_height 0, not -1. -/
theorem claim_C1_cx :
    rpcScanLoop (fun _ => (0 : Int)) [⟨"https://rpc.example.com", "prov"⟩] (-1) "" = (0, "")
    ∧ (0 : Int) ≠ -1 :=
  ⟨rfl, by decide⟩

lemma matchAt_ne_nil : ∀ (cs m : List Char), matchAt cs = some m → m ≠ [] := by
  intro cs m h
  cases cs with
  | nil => exact absurd h (by simp [matchAt])
  | cons c rest =>
    rw [matchAt] at h
    by_cases hc : c = 'v'
    · rw [if_pos hc] at h
      by_cases hp : (leadingDigits rest).1 = []
      · rw [if_pos hp] at h; exact absurd h (by simp)
      · rw [if_neg hp] at h
        have hm := Option.some.inj h
        intro hnil
        rw [← hm] at hnil
        exact hp (List.append_eq_nil.mp hnil).1
    · rw [if_neg hc] at h; exact absurd h (by simp)

lemma searchAux_ne_nil : ∀ (cs m : List Char), searchAux cs = some m → m ≠ [] := by
  intro cs
  induction cs with
  | nil => intro m h; exact absurd h (by simp [searchAux])
  | cons c cs ih =>
    intro m h
    rw [searchAux] at h
    cases hm : matchAt (c :: cs) with
    | some m' =>
      rw [hm] at h
      exact (Option.some.inj h) ▸ matchAt_ne_nil (c :: cs) m' hm
    | none =>
      rw [hm] at h
      exact ih m h

lemma semverSearch_ne_empty : ∀ (s v : String), semverSearch s = some v → v ≠ "" := by
  intro s v h
  rw [semverSearch] at h
  cases hsa : searchAux s.data with
  | none => rw [hsa] at h; exact absurd h (by simp)
  | some m =>
    rw [hsa] at h
    have hv := Option.some.inj h
    intro he
    apply searchAux_ne_nil s.data m hsa
    have : v.data = m := by rw [← hv]
    rw [he] at this
    exact this.symm

lemma extractProposalVersion_ne_empty :
    ∀ (c : ProposalContent) (v : String), extractProposalVersion c = some v → v ≠ "" := by
  intro c v h
  rw [extractProposalVersion] at h
  cases hp : semverSearch c.plan_name with
  | some p =>
    cases hd : semverSearch c.description with
    | some d =>
      rw [hp, hd] at h
      have hv := Option.some.inj h
      by_cases hlen : p.length > d.length
      · rw [if_pos hlen] at hv
        exact hv ▸ semverSearch_ne_empty _ p hp
      · rw [if_neg hlen] at hv
        exact hv ▸ semverSearch_ne_empty _ d hd
    | none =>
      rw [hp, hd] at h
      exact (Option.some.inj h) ▸ semverSearch_ne_empty _ p hp
  | none =>
    cases hd : semverSearch c.description with
    | some d =>
      rw [hp, hd] at h
      exact (Option.some.inj h) ▸ semverSearch_ne_empty _ d hd
    | none =>
      rw [hp, hd] at h
      exact absurd h (by simp)

/-- Claim C5 (amended): on a successful response the proposals are scanned
in order keeping only software-upgrade proposals, and the returned
(version, height) pair comes from the FIRST such proposal whose version
extraction succeeds — a software-upgrade proposal with no extractable
version is skipped, not returned; if no proposal qualifies, (None, None)
is returned. -/
theorem claim_C5 : ∀ l : List ProposalContent,
    scanProposals l =
      (l.find? (fun c =>
          (c.type_ == softwareUpgradeType) && (extractProposalVersion c).isSome)).map
        (fun c => ((extractProposalVersion c).getD "", proposalHeight c)) := by
  intro l
  induction l with
  | nil => rfl
  | cons c rest ih =>
    by_cases ht : c.type_ = softwareUpgradeType
    · cases hv : extractProposalVersion c with
      | none =>
        have hpred : ((c.type_ == softwareUpgradeType)
            && (extractProposalVersion c).isSome) = false := by
          simp [hv]
        rw [scanProposals, if_pos ht, hv, List.find?_cons_of_neg _ (by simp [hpred]), ih]
      | some v =>
        have hne : v ≠ "" := extractProposalVersion_ne_empty c v hv
        rw [List.find?_cons_of_pos _ (by simp [ht, hv])]
        simp [scanProposals, ht, hv, hne]
    · rw [scanProposals, if_neg ht, List.find?_cons_of_neg _ (by simp [ht]), ih]

/-- Counterexample to claim C5 as stated: the first software-upgrade
proposal has no extractable version, so the scan skips it and returns the
second proposal's pair instead of the first proposal's. -/
theorem claim_C5_cx :
    (⟨softwareUpgradeType, "upgrade", "scheduled maintenance", some "100"⟩
        : ProposalContent).type_ = softwareUpgradeType
    ∧ extractProposalVersion
        ⟨softwareUpgradeType, "upgrade", "scheduled maintenance", some "100"⟩ = none
    ∧ scanProposals
        [⟨softwareUpgradeType, "upgrade", "scheduled maintenance", some "100"⟩,
         ⟨softwareUpgradeType, "v3", "", some "200"⟩] = some ("3", 200) := by
  refine ⟨rfl, by decide, by decide⟩

/-- Spec-side acceptance condition for one upgrade-source result (version,
height): the version is non-empty, the height is not unknown, and the
height is strictly greater than the current latest block height. -/
def specAccepts (v : Option String) (hOpt : Option Int) (latest : Int) : Prop :=
  (∃ s, v = some s ∧ s ≠ "") ∧ (∃ h, hOpt = some h ∧ latest < h)

lemma accepts_iff (v : Option String) (hOpt : Option Int) (latest : Int) :
    (truthy v && heightGt hOpt latest) = true ↔ specAccepts v hOpt latest := by
  cases v with
  | none => simp [truthy, specAccepts]
  | some s =>
    cases hOpt with
    | none => simp [truthy, heightGt, specAccepts]
    | some h => simp [truthy, heightGt, specAccepts]

lemma restLoop_cons_blacklisted (latest : Int) (query : String → RestOutcome)
    (e : Endpoint) (rest : List Endpoint)
    (hbl : SERVER_BLACKLIST.contains e.address = true) :
    restLoop latest query (e :: rest) = restLoop latest query rest := by
  rw [restLoop, if_pos hbl]

lemma restLoop_cons_failed (latest : Int) (query : String → RestOutcome)
    (e : Endpoint) (rest : List Endpoint)
    (hbl : SERVER_BLACKLIST.contains e.address = false)
    (hq : query e.address = .failed) :
    restLoop latest query (e :: rest) = restLoop latest query rest := by
  rw [restLoop, if_neg (by simp only [hbl]; decide), hq]

lemma restLoop_cons_ok (latest : Int) (query : String → RestOutcome)
    (e : Endpoint) (rest : List Endpoint)
    (av : Option String) (ah : Option Int) (cv : Option String) (ch : Option Int)
    (hbl : SERVER_BLACKLIST.contains e.address = false)
    (hq : query e.address = .ok av ah cv ch) :
    restLoop latest query (e :: rest) =
      if truthy av && heightGt ah latest then
        ⟨ah, av.getD "", "active_upgrade_proposals"⟩
      else if truthy cv && heightGt ch latest then
        ⟨ch, cv.getD "", "current_upgrade_plan"⟩
      else restLoop latest query rest := by
  rw [restLoop, if_neg (by simp only [hbl]; decide), hq]

/-- Claim C3: for a REST candidate whose two upgrade queries complete
without failure, the active-proposal result is accepted (source
"active_upgrade_proposals", loop stops) iff its version is non-empty, its
height is known and strictly greater than latest_block_height; otherwise
the current-plan result is accepted under the same condition (source
"current_upgrade_plan"); otherwise iteration continues with the next
candidates. -/
theorem claim_C3 :
    ∀ (latest : Int) (query : String → RestOutcome) (e : Endpoint) (rest : List Endpoint)
      (av : Option String) (ah : Option Int) (cv : Option String) (ch : Option Int),
      SERVER_BLACKLIST.contains e.address = false →
      query e.address = .ok av ah cv ch →
      ((specAccepts av ah latest →
          restLoop latest query (e :: rest)
            = ⟨ah, av.getD "", "active_upgrade_proposals"⟩)
       ∧ (¬ specAccepts av ah latest → specAccepts cv ch latest →
          restLoop latest query (e :: rest)
            = ⟨ch, cv.getD "", "current_upgrade_plan"⟩)
       ∧ (¬ specAccepts av ah latest → ¬ specAccepts cv ch latest →
          restLoop latest query (e :: rest) = restLoop latest query rest)) := by
  intro latest query e rest av ah cv ch hbl hq
  rw [restLoop_cons_ok latest query e rest av ah cv ch hbl hq]
  refine ⟨?_, ?_, ?_⟩
  · intro hacc
    have h1 : (truthy av && heightGt ah latest) = true := (accepts_iff av ah latest).mpr hacc
    rw [if_pos h1]
  · intro hna hacc
    have h1 : (truthy av && heightGt ah latest) = false := by
      cases hb : (truthy av && heightGt ah latest) with
      | false => rfl
      | true => exact absurd ((accepts_iff av ah latest).mp hb) hna
    have h2 : (truthy cv && heightGt ch latest) = true := (accepts_iff cv ch latest).mpr hacc
    rw [if_neg (by simp [h1]), if_pos h2]
  · intro hna hnc
    have h1 : (truthy av && heightGt ah latest) = false := by
      cases hb : (truthy av && heightGt ah latest) with
      | false => rfl
      | true => exact absurd ((accepts_iff av ah latest).mp hb) hna
    have h2 : (truthy cv && heightGt ch latest) = false := by
      cases hb : (truthy cv && heightGt ch latest) with
      | false => rfl
      | true => exact absurd ((accepts_iff cv ch latest).mp hb) hnc
    rw [if_neg (by simp [h1]), if_neg (by simp [h2])]

/-- Witness for claim C3: the spec scenario — the active-proposal query
yields version "5.0" at height 1000 while the current height is 800, so
the candidate is accepted with source "active_upgrade_proposals". -/
theorem claim_C3_witness :
    restLoop 800 (fun _ => RestOutcome.ok (some "5.0") (some 1000) none none)
      [⟨"https://rest.example.com", "p"⟩]
      = ⟨some 1000, "5.0", "active_upgrade_proposals"⟩ :=
  (claim_C3 800 (fun _ => RestOutcome.ok (some "5.0") (some 1000) none none)
      ⟨"https://rest.example.com", "p"⟩ [] (some "5.0") (some 1000) none none
      (by decide) rfl).1
    ⟨⟨"5.0", rfl, by decide⟩, ⟨1000, rfl, by decide⟩⟩

lemma restLoop_invariant (latest : Int) (query : String → RestOutcome) :
    ∀ l : List Endpoint,
      restLoop latest query l = ⟨none, "", ""⟩
      ∨ ((restLoop latest query l).upgrade_version ≠ ""
         ∧ (∃ h, (restLoop latest query l).upgrade_block_height = some h ∧ latest < h)
         ∧ ((restLoop latest query l).source = "active_upgrade_proposals"
            ∨ (restLoop latest query l).source = "current_upgrade_plan")) := by
  intro l
  induction l with
  | nil => left; rfl
  | cons e rest ih =>
    cases hbl : SERVER_BLACKLIST.contains e.address with
    | true =>
      rw [restLoop_cons_blacklisted latest query e rest hbl]
      exact ih
    | false =>
      cases hq : query e.address with
      | failed =>
        rw [restLoop_cons_failed latest query e rest hbl hq]
        exact ih
      | ok av ah cv ch =>
        cases h1 : (truthy av && heightGt ah latest) with
        | true =>
          obtain ⟨⟨s, hs, hsne⟩, ⟨h, hh, hlt⟩⟩ := (accepts_iff av ah latest).mp h1
          rw [restLoop_cons_ok latest query e rest av ah cv ch hbl hq, if_pos h1]
          right
          refine ⟨?_, ⟨h, hh, hlt⟩, Or.inl rfl⟩
          rw [hs]
          simpa using hsne
        | false =>
          cases h2 : (truthy cv && heightGt ch latest) with
          | true =>
            obtain ⟨⟨s, hs, hsne⟩, ⟨h, hh, hlt⟩⟩ := (accepts_iff cv ch latest).mp h2
            rw [restLoop_cons_ok latest query e rest av ah cv ch hbl hq,
              if_neg (by simp [h1]), if_pos h2]
            right
            refine ⟨?_, ⟨h, hh, hlt⟩, Or.inr rfl⟩
            rw [hs]
            simpa using hsne
          | false =>
            rw [restLoop_cons_ok latest query e rest av ah cv ch hbl hq,
              if_neg (by simp [h1]), if_neg (by simp [h2])]
            exact ih

lemma fetch_data_fields (n t : String) (rpcs rests : List Endpoint)
    (g : String → Int) (q : String → RestOutcome) :
    (fetch_data_for_network n t rpcs rests g q).upgrade_found
      = ((restLoop (rpcScanLoop g rpcs (-1) "").1 q rests).upgrade_version != "")
    ∧ (fetch_data_for_network n t rpcs rests g q).latest_block_height
      = (rpcScanLoop g rpcs (-1) "").1
    ∧ (fetch_data_for_network n t rpcs rests g q).upgrade_block_height
      = (restLoop (rpcScanLoop g rpcs (-1) "").1 q rests).upgrade_block_height
    ∧ (fetch_data_for_network n t rpcs rests g q).version
      = (restLoop (rpcScanLoop g rpcs (-1) "").1 q rests).upgrade_version
    ∧ (fetch_data_for_network n t rpcs rests g q).source
      = (restLoop (rpcScanLoop g rpcs (-1) "").1 q rests).source :=
  ⟨rfl, rfl, rfl, rfl, rfl⟩

/-- Claim C4: every NetworkResult emitted by the Reconciler satisfies
upgrade_found = (version ≠ "") and, when upgrade_found holds,
upgrade_block_height is strictly greater than the latest_block_height
value recorded in the same result (including when that value is -1). -/
theorem claim_C4 :
    ∀ (network network_type : String) (rpcs rests : List Endpoint)
      (getHeight : String → Int) (query : String → RestOutcome),
      (fetch_data_for_network network network_type rpcs rests getHeight query).upgrade_found
        = ((fetch_data_for_network network network_type rpcs rests getHeight query).version != "")
      ∧ ((fetch_data_for_network network network_type rpcs rests getHeight query).upgrade_found
            = true →
         ∃ h, (fetch_data_for_network network network_type rpcs rests getHeight
                  query).upgrade_block_height = some h
              ∧ (fetch_data_for_network network network_type rpcs rests getHeight
                  query).latest_block_height < h) := by
  intro n t rpcs rests g q
  have hinv := restLoop_invariant (rpcScanLoop g rpcs (-1) "").1 q rests
  obtain ⟨hfound, hlatest, hheight, hversion, _⟩ := fetch_data_fields n t rpcs rests g q
  constructor
  · rw [hfound, hversion]
  · intro hf
    rw [hfound] at hf
    rcases hinv with heq | ⟨_, ⟨h, hh, hlt⟩, _⟩
    · rw [heq] at hf
      simp at hf
    · refine ⟨h, ?_, ?_⟩
      · rw [hheight, hh]
      · rw [hlatest]
        exact hlt

/-- Witness for claim C4 at a concrete accepted upgrade. -/
theorem claim_C4_witness :
    (fetch_data_for_network "osmosis" "mainnet" [⟨"https://rpc.x", "p"⟩]
        [⟨"https://rest.x", "p"⟩] (fun _ => 800)
        (fun _ => RestOutcome.ok (some "5.0") (some 1000) none none)).upgrade_found
      = ((fetch_data_for_network "osmosis" "mainnet" [⟨"https://rpc.x", "p"⟩]
        [⟨"https://rest.x", "p"⟩] (fun _ => 800)
        (fun _ => RestOutcome.ok (some "5.0") (some 1000) none none)).version != "")
    ∧ ∃ h, (fetch_data_for_network "osmosis" "mainnet" [⟨"https://rpc.x", "p"⟩]
        [⟨"https://rest.x", "p"⟩] (fun _ => 800)
        (fun _ => RestOutcome.ok (some "5.0") (some 1000) none none)).upgrade_block_height
          = some h
      ∧ (fetch_data_for_network "osmosis" "mainnet" [⟨"https://rpc.x", "p"⟩]
        [⟨"https://rest.x", "p"⟩] (fun _ => 800)
        (fun _ => RestOutcome.ok (some "5.0") (some 1000) none none)).latest_block_height < h :=
  ⟨(claim_C4 "osmosis" "mainnet" [⟨"https://rpc.x", "p"⟩] [⟨"https://rest.x", "p"⟩]
      (fun _ => 800) (fun _ => RestOutcome.ok (some "5.0") (some 1000) none none)).1,
   (claim_C4 "osmosis" "mainnet" [⟨"https://rpc.x", "p"⟩] [⟨"https://rest.x", "p"⟩]
      (fun _ => 800) (fun _ => RestOutcome.ok (some "5.0") (some 1000) none none)).2
     (by decide)⟩

/-- Claim C10: every NetworkResult emitted by the Reconciler has source in
{"", "active_upgrade_proposals", "current_upgrade_plan"}; source is
non-empty exactly when upgrade_found is true; and upgrade_block_height is
None exactly when upgrade_found is false. -/
theorem claim_C10 :
    ∀ (network network_type : String) (rpcs rests : List Endpoint)
      (getHeight : String → Int) (query : String → RestOutcome),
      ((fetch_data_for_network network network_type rpcs rests getHeight query).source = ""
        ∨ (fetch_data_for_network network network_type rpcs rests getHeight query).source
            = "active_upgrade_proposals"
        ∨ (fetch_data_for_network network network_type rpcs rests getHeight query).source
            = "current_upgrade_plan")
      ∧ ((fetch_data_for_network network network_type rpcs rests getHeight query).source ≠ ""
          ↔ (fetch_data_for_network network network_type rpcs rests getHeight
              query).upgrade_found = true)
      ∧ ((fetch_data_for_network network network_type rpcs rests getHeight
            query).upgrade_block_height = none
          ↔ (fetch_data_for_network network network_type rpcs rests getHeight
              query).upgrade_found = false) := by
  intro n t rpcs rests g q
  have hinv := restLoop_invariant (rpcScanLoop g rpcs (-1) "").1 q rests
  obtain ⟨hfound, _, hheight, _, hsource⟩ := fetch_data_fields n t rpcs rests g q
  rw [hfound, hheight, hsource]
  rcases hinv with heq | ⟨hne, ⟨h, hh, _⟩, hsrc⟩
  · rw [heq]
    refine ⟨Or.inl rfl, ?_, ?_⟩ <;> simp
  · have hfd : ((restLoop (rpcScanLoop g rpcs (-1) "").1 q rests).upgrade_version != "")
        = true := by
      simpa using hne
    refine ⟨?_, ?_, ?_⟩
    · rcases hsrc with hs | hs
      · exact Or.inr (Or.inl hs)
      · exact Or.inr (Or.inr hs)
    · constructor
      · intro _
        exact hfd
      · intro _
        rcases hsrc with hs | hs <;> rw [hs] <;> simp
    · constructor
      · intro hnone
        rw [hh] at hnone
        exact absurd hnone (by simp)
      · intro hfalse
        rw [hfd] at hfalse
        exact absurd hfalse (by simp)

/-- Witness for claim C10 at a concrete accepted upgrade. -/
theorem claim_C10_witness :
    ((fetch_data_for_network "juno" "mainnet" [] [⟨"https://rest.y", "p"⟩] (fun _ => -1)
        (fun _ => RestOutcome.ok none none (some "3.2") (some 500))).source = ""
      ∨ (fetch_data_for_network "juno" "mainnet" [] [⟨"https://rest.y", "p"⟩] (fun _ => -1)
        (fun _ => RestOutcome.ok none none (some "3.2") (some 500))).source
          = "active_upgrade_proposals"
      ∨ (fetch_data_for_network "juno" "mainnet" [] [⟨"https://rest.y", "p"⟩] (fun _ => -1)
        (fun _ => RestOutcome.ok none none (some "3.2") (some 500))).source
          = "current_upgrade_plan")
    ∧ ((fetch_data_for_network "juno" "mainnet" [] [⟨"https://rest.y", "p"⟩] (fun _ => -1)
        (fun _ => RestOutcome.ok none none (some "3.2") (some 500))).source ≠ ""
        ↔ (fetch_data_for_network "juno" "mainnet" [] [⟨"https://rest.y", "p"⟩] (fun _ => -1)
        (fun _ => RestOutcome.ok none none (some "3.2") (some 500))).upgrade_found = true)
    ∧ ((fetch_data_for_network "juno" "mainnet" [] [⟨"https://rest.y", "p"⟩] (fun _ => -1)
        (fun _ => RestOutcome.ok none none (some "3.2") (some 500))).upgrade_block_height = none
        ↔ (fetch_data_for_network "juno" "mainnet" [] [⟨"https://rest.y", "p"⟩] (fun _ => -1)
        (fun _ => RestOutcome.ok none none (some "3.2") (some 500))).upgrade_found = false) :=
  claim_C10 "juno" "mainnet" [] [⟨"https://rest.y", "p"⟩] (fun _ => -1)
    (fun _ => RestOutcome.ok none none (some "3.2") (some 500))

lemma leadingDigits_append : ∀ cs : List Char,
    (leadingDigits cs).1 ++ (leadingDigits cs).2 = cs := by
  intro cs
  induction cs with
  | nil => rfl
  | cons c cs ih =>
    cases hc : c.isDigit with
    | true => simp [leadingDigits, hc, ih]
    | false => simp [leadingDigits, hc]

lemma leadingDigits_digits : ∀ cs : List Char, ∀ c ∈ (leadingDigits cs).1,
    c.isDigit = true := by
  intro cs
  induction cs with
  | nil => intro c hc; exact absurd hc (by simp [leadingDigits])
  | cons a cs ih =>
    intro c hc
    cases ha : a.isDigit with
    | true =>
      rw [leadingDigits] at hc
      simp only [ha, if_true] at hc
      rcases List.mem_cons.mp hc with h | h
      · exact h ▸ ha
      · exact ih c h
    | false =>
      rw [leadingDigits] at hc
      simp [ha] at hc

lemma dotGroups_spec : ∀ (k : Nat) (cs : List Char),
    (dotGroups k cs).1 ++ (dotGroups k cs).2 = cs
    ∧ ∃ gs : List (List Char), gs.length ≤ k
        ∧ (∀ g ∈ gs, g ≠ [] ∧ ∀ c ∈ g, c.isDigit = true)
        ∧ (dotGroups k cs).1 = (gs.map (fun g => '.' :: g)).flatten := by
  intro k
  induction k with
  | zero =>
    intro cs
    exact ⟨rfl, [], by simp, by simp, rfl⟩
  | succ k ih =>
    intro cs
    cases cs with
    | nil => exact ⟨rfl, [], by simp, by simp, rfl⟩
    | cons c rest =>
      by_cases hc : c = '.'
      · by_cases hp : (leadingDigits rest).1 = []
        · rw [dotGroups, if_pos hc, if_pos hp]
          exact ⟨rfl, [], by simp, by simp, rfl⟩
        · obtain ⟨hap, ⟨gs, hlen, hdig, hjoin⟩⟩ := ih (leadingDigits rest).2
          rw [dotGroups, if_pos hc, if_neg hp]
          constructor
          · show c :: ((leadingDigits rest).1 ++ (dotGroups k (leadingDigits rest).2).1)
                ++ (dotGroups k (leadingDigits rest).2).2 = c :: rest
            rw [List.cons_append, List.append_assoc, hap, leadingDigits_append]
          · refine ⟨(leadingDigits rest).1 :: gs, by simpa using hlen, ?_, ?_⟩
            · intro g hg
              rcases List.mem_cons.mp hg with h | h
              · exact h ▸ ⟨hp, leadingDigits_digits rest⟩
              · exact hdig g h
            · show c :: ((leadingDigits rest).1 ++ (dotGroups k (leadingDigits rest).2).1)
                  = _
              rw [hjoin, hc]
              simp
      · rw [dotGroups, if_neg hc]
        exact ⟨rfl, [], by simp, by simp, rfl⟩

lemma matchAt_sound : ∀ (cs m : List Char), matchAt cs = some m →
    (∃ (g0 : List Char) (gs : List (List Char)),
        m = g0 ++ (gs.map (fun g => '.' :: g)).flatten
       ∧ g0 ≠ [] ∧ (∀ c ∈ g0, c.isDigit = true) ∧ gs.length ≤ 2
       ∧ (∀ g ∈ gs, g ≠ [] ∧ ∀ c ∈ g, c.isDigit = true))
    ∧ ('v' :: m) <+: cs := by
  intro cs m h
  cases cs with
  | nil => exact absurd h (by simp [matchAt])
  | cons c rest =>
    rw [matchAt] at h
    by_cases hc : c = 'v'
    · rw [if_pos hc] at h
      by_cases hp : (leadingDigits rest).1 = []
      · rw [if_pos hp] at h; exact absurd h (by simp)
      · rw [if_neg hp] at h
        have hm := Option.some.inj h
        obtain ⟨hap, ⟨gs, hlen, hdig, hjoin⟩⟩ := dotGroups_spec 2 (leadingDigits rest).2
        constructor
        · exact ⟨(leadingDigits rest).1, gs, by rw [← hm, hjoin],
            hp, leadingDigits_digits rest, hlen, hdig⟩
        · refine ⟨(dotGroups 2 (leadingDigits rest).2).2, ?_⟩
          rw [← hm, hc]
          show 'v' :: ((leadingDigits rest).1
              ++ (dotGroups 2 (leadingDigits rest).2).1
              ++ (dotGroups 2 (leadingDigits rest).2).2) = 'v' :: rest
          rw [List.append_assoc, hap, leadingDigits_append]
    · rw [if_neg hc] at h; exact absurd h (by simp)

lemma searchAux_first : ∀ (cs m : List Char), searchAux cs = some m →
    ∃ i, matchAt (cs.drop i) = some m ∧ ∀ j < i, matchAt (cs.drop j) = none := by
  intro cs
  induction cs with
  | nil => intro m h; exact absurd h (by simp [searchAux])
  | cons c cs ih =>
    intro m h
    rw [searchAux] at h
    cases hm : matchAt (c :: cs) with
    | some mh =>
      rw [hm] at h
      refine ⟨0, ?_, ?_⟩
      · rw [List.drop_zero, hm, Option.some.inj h]
      · intro j hj; omega
    | none =>
      rw [hm] at h
      obtain ⟨i, h1, h2⟩ := ih m h
      refine ⟨i + 1, h1, ?_⟩
      intro j hj
      cases j with
      | zero => exact hm
      | succ j => exact h2 j (by omega)

/-- Claim C6: version extraction takes the first regex match of 'v'
followed by 1-3 dot-separated numeric groups and returns the captured
digits-and-dots string without the leading 'v'; in the active-proposals
reader, when both the plan name and the description yield a match the
longer captured string is selected, when only one yields a match that one
is selected; name "upgrade-v2.1.0-handler" with description "see v2"
yields "2.1.0", and a description-only match "vault v1.4" yields "1.4". -/
theorem claim_C6 :
    (∀ (s v : String), semverSearch s = some v →
      (∃ (g0 : List Char) (gs : List (List Char)),
          v.data = g0 ++ (gs.map (fun g => '.' :: g)).flatten
         ∧ g0 ≠ [] ∧ (∀ c ∈ g0, c.isDigit = true) ∧ gs.length ≤ 2
         ∧ (∀ g ∈ gs, g ≠ [] ∧ ∀ c ∈ g, c.isDigit = true))
      ∧ (∃ i, ('v' :: v.data) <+: s.data.drop i
           ∧ ∀ j < i, matchAt (s.data.drop j) = none))
    ∧ (∀ (content : ProposalContent) (p d : String),
        semverSearch content.plan_name = some p →
        semverSearch content.description = some d →
        d.length < p.length → extractProposalVersion content = some p)
    ∧ (∀ (content : ProposalContent) (p d : String),
        semverSearch content.plan_name = some p →
        semverSearch content.description = some d →
        p.length ≤ d.length → extractProposalVersion content = some d)
    ∧ (∀ (content : ProposalContent) (p : String),
        semverSearch content.plan_name = some p →
        semverSearch content.description = none →
        extractProposalVersion content = some p)
    ∧ (∀ (content : ProposalContent) (d : String),
        semverSearch content.plan_name = none →
        semverSearch content.description = some d →
        extractProposalVersion content = some d)
    ∧ extractProposalVersion
        ⟨softwareUpgradeType, "upgrade-v2.1.0-handler", "see v2", none⟩ = some "2.1.0"
    ∧ extractProposalVersion
        ⟨softwareUpgradeType, "", "vault v1.4", none⟩ = some "1.4" := by
  refine ⟨?_, ?_, ?_, ?_, ?_, by decide, by decide⟩
  · intro s v h
    rw [semverSearch] at h
    cases hsa : searchAux s.data with
    | none => rw [hsa] at h; exact absurd h (by simp)
    | some m =>
      rw [hsa] at h
      have hv : String.mk m = v := Option.some.inj h
      have hd : v.data = m := by rw [← hv]
      obtain ⟨i, h1, h2⟩ := searchAux_first s.data m hsa
      obtain ⟨hshape, hpre⟩ := matchAt_sound (s.data.drop i) m h1
      rw [hd]
      exact ⟨hshape, i, hpre, h2⟩
  · intro content p d hp hd hlen
    simp only [extractProposalVersion, hp, hd]
    rw [if_pos hlen]
  · intro content p d hp hd hlen
    simp only [extractProposalVersion, hp, hd]
    rw [if_neg (by omega)]
  · intro content p hp hd
    simp only [extractProposalVersion, hp, hd]
  · intro content d hp hd
    simp only [extractProposalVersion, hp, hd]

/-- Witness for claim C6 at concrete inputs: a longer name match beats a
shorter description match, and a description-only match is selected. -/
theorem claim_C6_witness :
    extractProposalVersion ⟨softwareUpgradeType, "plan v10.2", "also v3", none⟩
      = some "10.2"
    ∧ extractProposalVersion ⟨softwareUpgradeType, "no name match", "go v7.1", none⟩
      = some "7.1" :=
  ⟨claim_C6.2.1 ⟨softwareUpgradeType, "plan v10.2", "also v3", none⟩ "10.2" "3"
      (by decide) (by decide) (by decide),
   claim_C6.2.2.2.2.1 ⟨softwareUpgradeType, "no name match", "go v7.1", none⟩ "7.1"
      (by decide) (by decide)⟩

end CosmosUpgrades
